import Mathlib

/-!
Verification development for the WordPress MCP server (mcpwp).

Text is modelled as `List Char` (mirroring Python's character-by-character
string processing in `ai_content_generator.py`), JSON values decoded by
`json.loads` as the inductive `Json`, and outgoing HTTP traffic of the
`WordPressAPI` client as explicit `HttpRequest` / `WpCall` values.
-/

namespace Mcpwp

/-- Whitespace recognised by Python's `str.strip()` and the `\s` regex
class, restricted to ASCII (the only characters relevant here). -/
def isPySpace (c : Char) : Bool :=
  c = ' ' ∨ c = '\t' ∨ c = '\n' ∨ c = '\r' ∨ c = Char.ofNat 11 ∨ c = Char.ofNat 12

/-- The backquote character, written by code point. -/
def backtick : Char := Char.ofNat 96

/-- Core of the in-string escape repair loop of
`AIContentGenerator.generate_post_content` (ai_content_generator.py
lines 124-155): walks the characters tracking the `in_string` and
`escape_next` flags exactly as the Python loop does, rewriting a literal
newline inside a string to the two characters `\` `n`, a literal tab to
`\` `t`, and dropping a literal carriage return. -/
def repairAux : List Char → Bool → Bool → List Char
  | [], _, _ => []
  | c :: rest, inS, esc =>
    if esc = true then c :: repairAux rest inS false
    else if c = '\\' then c :: repairAux rest inS true
    else if c = '"' then c :: repairAux rest (!inS) false
    else if inS = true ∧ c = '\n' then '\\' :: 'n' :: repairAux rest inS false
    else if inS = true ∧ c = '\r' then repairAux rest inS false
    else if inS = true ∧ c = '\t' then '\\' :: 't' :: repairAux rest inS false
    else c :: repairAux rest inS false

/-- The repair pass started, as in the source, with `in_string = False`
and `escape_next = False`. -/
def repairList (s : List Char) : List Char := repairAux s false false

/-- State of the `(in_string, escape_next)` flags after scanning a
portion of text, following exactly the transitions of the repair loop. -/
def stateAfter : List Char → Bool → Bool → Bool × Bool
  | [], inS, esc => (inS, esc)
  | c :: rest, inS, esc =>
    if esc = true then stateAfter rest inS false
    else if c = '\\' then stateAfter rest inS true
    else if c = '"' then stateAfter rest (!inS) false
    else stateAfter rest inS false

/-- Python's `str.strip()`: drop leading and trailing whitespace. -/
def stripChars (s : List Char) : List Char :=
  ((s.dropWhile isPySpace).reverse.dropWhile isPySpace).reverse

/-- Test for `content_clean.startswith("```")`
(ai_content_generator.py line 117). -/
def startsWithFence (s : List Char) : Bool :=
  s.take 3 = [backtick, backtick, backtick]

/-- Embedding of `re.sub(r'^```(?:json)?\s*\n?', '', s)` as applied in
ai_content_generator.py line 119 (the caller has checked that `s` starts
with the triple backquote, so the anchored pattern matches): remove the
three backquotes, an optional `json` tag, and the greedy run of
whitespace that `\s*` consumes (which subsumes the optional newline). -/
def dropFenceOpen (s : List Char) : List Char :=
  let s1 := s.drop 3
  let s2 := if s1.take 4 = ['j', 's', 'o', 'n'] then s1.drop 4 else s1
  s2.dropWhile isPySpace

/-- Embedding of `re.sub(r'\n?```\s*$', '', s)`
(ai_content_generator.py line 120): if the text ends in three backquotes
followed only by whitespace, remove that whitespace, the backquotes and
one preceding newline if present; otherwise the pattern does not match
and the text is unchanged. -/
def dropFenceClose (s : List Char) : List Char :=
  let r := s.reverse
  let r1 := r.dropWhile isPySpace
  if r1.take 3 = [backtick, backtick, backtick] then
    let r2 := r1.drop 3
    let r3 := if r2.take 1 = ['\n'] then r2.drop 1 else r2
    r3.reverse
  else s

/-- Markdown-fence cleanup of `generate_post_content`
(ai_content_generator.py lines 116-120): strip surrounding whitespace,
then, only when the text starts with a triple backquote, remove the
opening and closing fence markers. -/
def cleanContent (s : List Char) : List Char :=
  let t := stripChars s
  if startsWithFence t then dropFenceClose (dropFenceOpen t) else t

/-- JSON values as decoded by `json.loads`. -/
inductive Json where
  | null : Json
  | bool (b : Bool) : Json
  | num (n : Int) : Json
  | str (s : String) : Json
  | arr (xs : List Json) : Json
  | obj (kvs : List (String × Json)) : Json
deriving BEq

/-- Membership test for a key of a decoded JSON object, modelling
Python's `field in result` on a dict. -/
def hasKey (kvs : List (String × Json)) (k : String) : Bool :=
  kvs.any (fun p => p.1 = k)

/-- Value of a key in a decoded JSON object (first occurrence; dicts
produced by `json.loads` never repeat keys). -/
def lookupKey (kvs : List (String × Json)) (k : String) : Option Json :=
  (kvs.find? (fun p => p.1 = k)).map (fun p => p.2)

/-- Field access `result.get(k)` style lookup on a `Json` value. -/
def jsonGet (j : Json) (k : String) : Option Json :=
  match j with
  | .obj kvs => lookupKey kvs k
  | _ => none

/-- Defaulting step of `generate_post_content` (ai_content_generator.py
lines 166-170): add `categories` and then `tags` as empty lists when the
parsed dict lacks them (dict assignment appends in insertion order). -/
def withDefaults (kvs : List (String × Json)) : List (String × Json) :=
  let kvs1 := if hasKey kvs "categories" = true then kvs
    else kvs ++ [("categories", Json.arr [])]
  if hasKey kvs1 "tags" = true then kvs1
  else kvs1 ++ [("tags", Json.arr [])]

/-- Post-parse validation and defaulting of `generate_post_content`
(ai_content_generator.py lines 160-177): require the keys `title`,
`content` and `excerpt` (mere key presence, as Python's `in` checks),
else return `None`; then apply `withDefaults` and return the
(augmented) parsed object. A decoded value that is not a dict ends in
`None` as well: either the `all(... in ...)` test fails or the later
item assignment raises, and the surrounding `except Exception` handler
returns `None`. -/
def validateParsed : Json → Option Json
  | .obj kvs =>
    if hasKey kvs "title" = true ∧ hasKey kvs "content" = true ∧
        hasKey kvs "excerpt" = true then
      some (.obj (withDefaults kvs))
    else none
  | _ => none

/-- Normalization pipeline of `generate_post_content` downstream of the
provider response, parameterized by the JSON parser (`json.loads` is
external library code; any parser function can be plugged in): fence
cleanup, in-string escape repair, parse, then validation/defaulting.
`none` is the `NormalizationError` outcome (the Python function returns
`None`). -/
def normalizeWith (parse : List Char → Option Json) (s : List Char) : Option Json :=
  (parse (repairList (cleanContent s))).bind validateParsed

/-! ## Content API client (`WordPressAPI`, server.py lines 36-175) -/

/-- One outgoing HTTP request of `WordPressAPI._request` (server.py
lines 54-72): the method, the full URL, the JSON body passed via
`json=data` (POST/PUT only), and the query parameters passed via
`params=` (GET only — note the DELETE branch at line 67 calls
`client.delete(url, headers=self.headers)` without forwarding
`params`). -/
structure HttpRequest where
  method : String
  url : String
  body : Option (List (String × Json))
  params : Option (List (String × String))

/-- Embedding of `WordPressAPI._request` (server.py lines 54-72) as the
request it puts on the wire: GET forwards `params`, POST/PUT forward
`data` as the JSON body, and DELETE forwards neither (the source's
DELETE call passes only `url` and `headers`). -/
def wpRequest (baseUrl method endpoint : String)
    (data : Option (List (String × Json)))
    (params : Option (List (String × String))) : HttpRequest :=
  let url := baseUrl ++ "/wp-json" ++ endpoint
  if method = "GET" then ⟨method, url, none, params⟩
  else if method = "POST" then ⟨method, url, data, none⟩
  else if method = "PUT" then ⟨method, url, data, none⟩
  else ⟨method, url, none, none⟩

/-- `WordPressAPI.delete_post` (server.py lines 110-113): builds a
`force` query parameter valued `true` or `false` from the caller's flag
and issues a DELETE through `_request`. -/
def deletePost (baseUrl : String) (postId : Nat) (force : Bool) : HttpRequest :=
  wpRequest baseUrl "DELETE" ("/wp/v2/posts/" ++ toString postId) none
    (some [("force", if force then "true" else "false")])

/-- `WordPressAPI.update_post` (server.py lines 106-108): a PUT whose
JSON body is exactly the `**kwargs` mapping supplied by the caller. -/
def updatePost (baseUrl : String) (postId : Nat)
    (kwargs : List (String × Json)) : HttpRequest :=
  wpRequest baseUrl "PUT" ("/wp/v2/posts/" ++ toString postId) (some kwargs) none

/-- Lookup of a key in the JSON body of an outgoing request. -/
def bodyLookup (r : HttpRequest) (k : String) : Option Json :=
  r.body.bind (fun b => lookupKey b k)

/-- Python's `arguments.get(k)`: the stored value, or `None` (JSON
`null`, since the value is then serialized into the request body) when
the key is absent. -/
def pyGet (args : List (String × Json)) (k : String) : Json :=
  (lookupKey args k).getD Json.null

/-- The `update_post` branch of the stdio dispatcher (server.py lines
559-561): `arguments.pop('post_id')` then `update_post(post_id,
**arguments)`, so the request body is the argument mapping with only
`post_id` removed — exactly the caller-provided fields. -/
def serverUpdatePost (baseUrl : String) (postId : Nat)
    (args : List (String × Json)) : HttpRequest :=
  updatePost baseUrl postId (args.filter (fun p => ¬ p.1 = "post_id"))

/-- The `update_post` branch of the HTTP wrapper dispatcher
(mcp_http_wrapper.py lines 383-391): every one of the five optional
fields is passed as a keyword argument via `arguments.get(...)`, so an
omitted field arrives as Python `None` and is serialized as JSON
`null` in the request body. -/
def wrapperUpdatePost (baseUrl : String) (postId : Nat)
    (args : List (String × Json)) : HttpRequest :=
  updatePost baseUrl postId
    [("title", pyGet args "title"), ("content", pyGet args "content"),
     ("status", pyGet args "status"), ("categories", pyGet args "categories"),
     ("tags", pyGet args "tags")]

/-! ## Taxonomy resolution and the AI generation flow -/

/-- A taxonomy term as stored by the remote content service. -/
structure Term where
  id : Nat
  name : String
deriving DecidableEq

/-- State of the remote content service as far as taxonomy resolution
observes it: the current tag and category listings, the id the service
would assign to the next created term, and whether tag creation
currently succeeds (a failing creation stands for a permission error or
duplicate race surfaced as an HTTP error). -/
structure Remote where
  tags : List Term
  categories : List Term
  nextId : Nat
  tagCreateOk : Bool
deriving DecidableEq

/-- Calls issued against the Content API Client during a tool flow. -/
inductive WpCall where
  | listTags (perPage : Nat)
  | listCategories (perPage : Nat)
  | createTag (name : String)
  | createPost (title content : Json) (status : String)
      (cats : Option (List Nat)) (tagIds : Option (List Nat))

/-- Tests whether a call mutates the remote service (a creation). -/
def isCreateCall : WpCall → Bool
  | .createTag _ => true
  | .createPost _ _ _ _ _ => true
  | _ => false

/-- ASCII model of Python's `str.lower()` as used in the
case-insensitive name comparisons of the resolution loops. -/
def pyLower (s : String) : String := String.mk (s.data.map Char.toLower)

/-- The comparison `term.get("name", "").lower() == name.lower()` from
the resolution loops (server.py lines 631, 652; mcp_http_wrapper.py
lines 448, 470). -/
def nameMatches (t : Term) (n : String) : Bool := pyLower t.name = pyLower n

/-- First term of a listing whose name matches case-insensitively (the
loops `break` at the first match). -/
def findTerm (ts : List Term) (n : String) : Option Term :=
  ts.find? (fun t => nameMatches t n)

/-- `WordPressAPI.create_tag` as observed by the resolver: on success
the remote appends a fresh term and returns it, on failure the HTTP
error is raised as an exception (server.py lines 166-175 with
`_request` raising on a non-2xx status). -/
def wpCreateTag (r : Remote) (n : String) : Except String (Term × Remote) :=
  if r.tagCreateOk then
    .ok (⟨r.nextId, n⟩,
      Remote.mk (r.tags ++ [⟨r.nextId, n⟩]) r.categories (r.nextId + 1) r.tagCreateOk)
  else .error "Error HTTP"

/-- Tag-resolution loop of the `generate_post_with_ai` flow
(mcp_http_wrapper.py lines 463-484; same shape in server.py lines
645-663): for each name, fetch the current tag listing
(`list_tags(per_page=100)`; the listing returned is the collaborator's
response, modelled as the remote's tag list), use the first
case-insensitive match, otherwise attempt one creation whose failure is
caught (`except ... pass`) so the loop continues. Returns the resolved
ids, the final remote state, and the log of issued calls. -/
def resolveTags (r : Remote) : List String → List Nat × Remote × List WpCall
  | [] => ([], r, [])
  | n :: rest =>
    match findTerm r.tags n with
    | some t =>
      let res := resolveTags r rest
      (t.id :: res.1, res.2.1, WpCall.listTags 100 :: res.2.2)
    | none =>
      match wpCreateTag r n with
      | .ok tr =>
        let res := resolveTags tr.2 rest
        (tr.1.id :: res.1, res.2.1, WpCall.listTags 100 :: WpCall.createTag n :: res.2.2)
      | .error _ =>
        let res := resolveTags r rest
        (res.1, res.2.1, WpCall.listTags 100 :: WpCall.createTag n :: res.2.2)

/-- Category-resolution loop of the `generate_post_with_ai` flow
(mcp_http_wrapper.py lines 440-460; same shape in server.py lines
623-642): for each name, fetch the category listing and use the first
case-insensitive match; when there is none, the `if not found` branch
only logs — no creation call exists in the code — and the name is
dropped. -/
def resolveCategories (r : Remote) : List String → List Nat × Remote × List WpCall
  | [] => ([], r, [])
  | n :: rest =>
    match findTerm r.categories n with
    | some t =>
      let res := resolveCategories r rest
      (t.id :: res.1, res.2.1, WpCall.listCategories 100 :: res.2.2)
    | none =>
      let res := resolveCategories r rest
      (res.1, res.2.1, WpCall.listCategories 100 :: res.2.2)

/-! ## Generation provider adapter and the `generate_post_with_ai` dispatch -/

/-- State of `AIContentGenerator` after construction
(ai_content_generator.py lines 18-32): `client` models `self.client`
(`none`/`None` versus set), the rest are the configured fields. -/
structure AIContentGenerator where
  client : Bool
  model : String
  baseUrl : String
  apiKey : String

/-- The constructor `AIContentGenerator.__init__` as a function of the
process environment: it reads no environment variable, hardcodes the
model name, base URL and API key, and unconditionally sets
`self.client = True` (the `try` body is two plain assignments and
cannot raise, so the `except` arm never runs). -/
def AIContentGenerator.init (_env : List (String × String)) : AIContentGenerator :=
  ⟨true, "llama-3.3-70b-versatile", "https://api.groq.com/openai/v1",
   "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"⟩

/-- `AIContentGenerator.is_available` (ai_content_generator.py lines
34-36): `self.client is not None`. -/
def AIContentGenerator.isAvailable (g : AIContentGenerator) : Bool := g.client

/-- Outcome of a JSON-RPC request at the HTTP wrapper: either a result
payload or an error envelope of code and message (the wrapper's outer
`except` at mcp_http_wrapper.py lines 525-534 turns any raised
exception into code `-32603` with `str(e)` as the message). -/
inductive RpcResult where
  | result (j : Json)
  | rpcError (code : Int) (msg : String)

/-- String elements of a JSON array (the generated category/tag name
lists; the prompt instructs the provider to emit arrays of strings, and
a non-string element would raise inside the loop, outside the behaviour
modelled here). -/
def strItems : Json → List String
  | .arr xs => xs.filterMap (fun j => match j with | .str s => some s | _ => none)
  | _ => []

/-- Name list `ai_content.get(k)` used to drive a resolution loop; a
missing or non-array value yields no iterations (Python's truthiness
test `if ai_content.get(k):` skips the loop). -/
def docNames (doc : Json) (k : String) : List String :=
  strItems ((jsonGet doc k).getD Json.null)

/-- The `tools/call` handling of `generate_post_with_ai` in the HTTP
wrapper (mcp_http_wrapper.py lines 422-501), as a function of the
generator state, of the value returned by `generate_post_content`
(`aiContent`; `none` is the provider/normalization failure returning
`None`), of the remote taxonomy state and of the requested status.
Returns the JSON-RPC outcome, the final remote state, and the ordered
log of Content API Client calls issued. The unavailable and
failed-generation branches `raise`, which the outer handler converts to
a `-32603` error envelope. The success payload keeps the wrapper's
annotations (`ai_generated`, `source`, `ai_categories`, `ai_tags`,
`excerpt`); the fields of the remote's own post response are the
collaborator's data and are not modelled. A missing `title` or
`content` key would raise a `KeyError` at the `create_post` call, after
the resolution calls. -/
def generatePostFlow (gen : AIContentGenerator) (aiContent : Option Json)
    (r : Remote) (status : String) : RpcResult × Remote × List WpCall :=
  if gen.isAvailable = true then
    match aiContent with
    | none => (.rpcError (-32603) "Error generando contenido con IA.", r, [])
    | some doc =>
      let cres := resolveCategories r (docNames doc "categories")
      let tres := resolveTags cres.2.1 (docNames doc "tags")
      let log := cres.2.2 ++ tres.2.2
      match jsonGet doc "title", jsonGet doc "content" with
      | some ttl, some cnt =>
        let post := WpCall.createPost ttl cnt status
          (if cres.1 = [] then none else some cres.1)
          (if tres.1 = [] then none else some tres.1)
        (.result (Json.obj
            [("ai_generated", Json.bool true), ("source", Json.str "Groq"),
             ("ai_categories", (jsonGet doc "categories").getD (Json.arr [])),
             ("ai_tags", (jsonGet doc "tags").getD (Json.arr [])),
             ("excerpt", (jsonGet doc "excerpt").getD (Json.str ""))]),
         tres.2.1, log ++ [post])
      | _, _ => (.rpcError (-32603) "KeyError", tres.2.1, log)
  else (.rpcError (-32603) "Generador de IA no disponible.", r, [])

/-! ## Helper lemmas -/

/-- Splitting the repair scan at any point: the repaired text of a
concatenation is the repaired first part followed by the second part
repaired from the state reached at the split. -/
theorem repairAux_append (xs ys : List Char) (inS esc : Bool) :
    repairAux (xs ++ ys) inS esc =
      repairAux xs inS esc ++
        repairAux ys (stateAfter xs inS esc).1 (stateAfter xs inS esc).2 := by
  induction xs generalizing inS esc with
  | nil => simp [repairAux, stateAfter]
  | cons c rest ih =>
    by_cases h1 : esc = true
    · simp [repairAux, stateAfter, h1, ih]
    · by_cases h2 : c = '\\'
      · simp [repairAux, stateAfter, h1, h2, ih]
      · by_cases h3 : c = '"'
        · simp [repairAux, stateAfter, h1, h2, h3, ih]
        · by_cases h4 : inS = true ∧ c = '\n'
          · simp [repairAux, stateAfter, h1, h2, h3, h4, ih]
          · by_cases h5 : inS = true ∧ c = '\r'
            · simp [repairAux, stateAfter, h1, h2, h3, h4, h5, ih]
            · by_cases h6 : inS = true ∧ c = '\t'
              · simp [repairAux, stateAfter, h1, h2, h3, h4, h5, h6, ih]
              · simp [repairAux, stateAfter, h1, h2, h3, h4, h5, h6, ih]

/-- Lookup misses when the key is absent. -/
theorem lookupKey_eq_none (kvs : List (String × Json)) (k : String)
    (h : hasKey kvs k = false) : lookupKey kvs k = none := by
  induction kvs with
  | nil => rfl
  | cons p rest ih =>
    simp [hasKey] at h
    simp [lookupKey, List.find?, h.1]
    exact h.2

/-- Filtering cannot introduce a key. -/
theorem hasKey_filter_false (kvs : List (String × Json)) (k : String)
    (q : String × Json → Bool) (h : hasKey kvs k = false) :
    hasKey (kvs.filter q) k = false := by
  induction kvs with
  | nil => rfl
  | cons p rest ih =>
    simp [hasKey] at h ⊢
    exact ⟨fun _ => h.1, fun a b hmem _ => h.2 a b hmem⟩

/-- Key membership after appending one pair. -/
theorem hasKey_append_one (base : List (String × Json)) (k k' : String) (v : Json) :
    hasKey (base ++ [(k', v)]) k = (hasKey base k || decide (k' = k)) := by
  simp [hasKey, List.any_append]

/-- Key membership distributes over appending. -/
theorem hasKey_append (base extra : List (String × Json)) (k : String) :
    hasKey (base ++ extra) k = (hasKey base k || hasKey extra k) := by
  simp [hasKey, List.any_append]

/-- Defaulting never removes a key. -/
theorem withDefaults_keeps (kvs : List (String × Json)) (k : String)
    (h : hasKey kvs k = true) : hasKey (withDefaults kvs) k = true := by
  unfold withDefaults
  cases hcat : hasKey kvs "categories"
  · cases htag : hasKey (kvs ++ [("categories", Json.arr [])]) "tags"
    · simp [hcat, htag, hasKey_append, h]
    · simp [hcat, htag, hasKey_append_one, h]
  · cases htag : hasKey kvs "tags"
    · simp [hcat, htag, hasKey_append_one, h]
    · simp [hcat, htag, h]

/-- Defaulting guarantees a `categories` key. -/
theorem withDefaults_has_cat (kvs : List (String × Json)) :
    hasKey (withDefaults kvs) "categories" = true := by
  unfold withDefaults
  cases hcat : hasKey kvs "categories"
  · cases htag : hasKey (kvs ++ [("categories", Json.arr [])]) "tags"
    · simp [hcat, htag, hasKey_append,
        show hasKey [("categories", Json.arr []), ("tags", Json.arr [])]
          "categories" = true from rfl]
    · simp [hcat, htag, hasKey_append_one]
  · cases htag : hasKey kvs "tags"
    · simp [hcat, htag, hasKey_append_one]
    · simp [hcat, htag]

/-- Defaulting guarantees a `tags` key. -/
theorem withDefaults_has_tags (kvs : List (String × Json)) :
    hasKey (withDefaults kvs) "tags" = true := by
  unfold withDefaults
  cases hcat : hasKey kvs "categories"
  · cases htag : hasKey (kvs ++ [("categories", Json.arr [])]) "tags"
    · simp [hcat, htag, hasKey_append,
        show hasKey [("categories", Json.arr []), ("tags", Json.arr [])]
          "tags" = true from rfl]
    · simp [hcat, htag]
  · cases htag : hasKey kvs "tags"
    · simp [hcat, htag, hasKey_append_one]
    · simp [hcat, htag]

/-- Stripping changes nothing when both ends are non-whitespace. -/
theorem stripChars_eq_self (s : List Char)
    (h1 : ∀ c, s.head? = some c → isPySpace c = false)
    (h2 : ∀ c, s.getLast? = some c → isPySpace c = false) :
    stripChars s = s := by
  unfold stripChars
  have e1 : s.dropWhile isPySpace = s := by
    cases s with
    | nil => rfl
    | cons a l =>
      rw [List.dropWhile_cons, h1 a rfl, if_neg Bool.false_ne_true]
  rw [e1]
  cases hr : s.reverse with
  | nil =>
    have : s = [] := by simpa using congrArg List.reverse hr.symm
    subst this
    rfl
  | cons c rest =>
    have hc : s.getLast? = some c := by
      rw [← List.head?_reverse, hr]
      rfl
    rw [List.dropWhile_cons, h2 c hc, if_neg Bool.false_ne_true, ← hr,
      List.reverse_reverse]

/-- Computation of the fence cleanup on a well-formed fenced block: for
a body that is trimmed (non-whitespace at both ends) and does not start
with a backquote, the cleanup of the fenced text returns the body, and
the cleanup of the bare body is the identity. -/
theorem cleanContent_fenced (tag : List Char) (b : Char) (bs : List Char)
    (htag : tag = [] ∨ tag = ['j', 's', 'o', 'n'])
    (hb1 : isPySpace b = false) (hb2 : ¬ b = backtick)
    (hlast : ∀ c, (b :: bs).getLast? = some c → isPySpace c = false) :
    cleanContent ([backtick, backtick, backtick] ++ tag ++ '\n' :: (b :: bs) ++
        '\n' :: [backtick, backtick, backtick]) = b :: bs ∧
    cleanContent (b :: bs) = b :: bs := by
  have hconcat : [backtick, backtick, backtick] ++ tag ++ '\n' :: (b :: bs) ++
      '\n' :: [backtick, backtick, backtick] =
      ([backtick, backtick, backtick] ++ tag ++ '\n' :: (b :: bs) ++
        ['\n', backtick, backtick]) ++ [backtick] := by
    simp
  have hstripw : stripChars ([backtick, backtick, backtick] ++ tag ++ '\n' :: (b :: bs) ++
      '\n' :: [backtick, backtick, backtick]) =
      [backtick, backtick, backtick] ++ tag ++ '\n' :: (b :: bs) ++
        '\n' :: [backtick, backtick, backtick] := by
    apply stripChars_eq_self
    · intro c hc
      have h0 : (([backtick, backtick, backtick] : List Char) ++ tag ++ '\n' :: (b :: bs) ++
          '\n' :: [backtick, backtick, backtick]).head? = some backtick := rfl
      injection h0.symm.trans hc with h
      subst h
      rfl
    · intro c hc
      rw [hconcat, List.getLast?_concat] at hc
      injection hc with h
      subst h
      rfl
  have e1 : dropFenceOpen ([backtick, backtick, backtick] ++ tag ++ '\n' :: (b :: bs) ++
      '\n' :: [backtick, backtick, backtick]) =
      b :: (bs ++ '\n' :: [backtick, backtick, backtick]) := by
    rcases htag with rfl | rfl <;>
      (show List.dropWhile isPySpace (b :: (bs ++ '\n' :: [backtick, backtick, backtick])) =
          b :: (bs ++ '\n' :: [backtick, backtick, backtick])
       rw [List.dropWhile_cons, hb1, if_neg Bool.false_ne_true])
  have e2 : dropFenceClose (b :: (bs ++ '\n' :: [backtick, backtick, backtick])) =
      b :: bs := by
    have hr : (b :: (bs ++ '\n' :: [backtick, backtick, backtick])).reverse =
        backtick :: backtick :: backtick :: '\n' :: (bs.reverse ++ [b]) := by
      simp
    simp only [dropFenceClose]
    rw [hr]
    show (bs.reverse ++ [b]).reverse = b :: bs
    simp
  have hstripb : stripChars (b :: bs) = b :: bs := by
    apply stripChars_eq_self
    · intro c hc
      injection hc with h
      subst h
      exact hb1
    · exact hlast
  have hsfb : startsWithFence (b :: bs) = false := by
    simp [startsWithFence, hb2]
  constructor
  · simp only [cleanContent]
    rw [hstripw,
      show startsWithFence ([backtick, backtick, backtick] ++ tag ++ '\n' :: (b :: bs) ++
        '\n' :: [backtick, backtick, backtick]) = true from rfl,
      if_pos rfl, e1, e2]
  · simp only [cleanContent]
    rw [hstripb, hsfb, if_neg Bool.false_ne_true]

/-! ## Claim theorems -/

/-- C1: for raw text whose scan state at a split point is inside a JSON
string value (with no escape pending), and whose two halves the repair
loop leaves unchanged (they contain no other in-string literal control
characters), the normalization rewrites a literal newline at the split
to the two-character sequence backslash-n, a literal tab to
backslash-t, and drops a literal carriage return; consequently
normalizing the raw text equals parsing the same text with the newline
pre-escaped. -/
theorem c1_in_string_repair (pre post : List Char)
    (hstate : stateAfter pre false false = (true, false))
    (hpre : repairAux pre false false = pre)
    (hpost : repairAux post true false = post) :
    repairList (pre ++ '\n' :: post) = pre ++ '\\' :: 'n' :: post ∧
    repairList (pre ++ '\t' :: post) = pre ++ '\\' :: 't' :: post ∧
    repairList (pre ++ '\r' :: post) = pre ++ post ∧
    ∀ parse : List Char → Option Json,
      cleanContent (pre ++ '\n' :: post) = pre ++ '\n' :: post →
      normalizeWith parse (pre ++ '\n' :: post) =
        (parse (pre ++ '\\' :: 'n' :: post)).bind validateParsed := by
  have key : ∀ c rest, repairList (pre ++ c :: rest) =
      pre ++ repairAux (c :: rest) true false := by
    intro c rest
    rw [repairList, repairAux_append, hpre, hstate]
  have hn : repairList (pre ++ '\n' :: post) = pre ++ '\\' :: 'n' :: post := by
    rw [key, show repairAux ('\n' :: post) true false =
      '\\' :: 'n' :: repairAux post true false from rfl, hpost]
  refine ⟨hn, ?_, ?_, ?_⟩
  · rw [key, show repairAux ('\t' :: post) true false =
      '\\' :: 't' :: repairAux post true false from rfl, hpost]
  · rw [key, show repairAux ('\r' :: post) true false =
      repairAux post true false from rfl, hpost]
  · intro parse hclean
    simp only [normalizeWith]
    rw [hclean, hn]

/-- Witness for C1 at a small concrete raw text. -/
theorem c1_in_string_repair_witness :
    stateAfter ("\"a".toList) false false = (true, false) ∧
    repairList ("\"a".toList ++ '\n' :: "b\"".toList) =
      "\"a".toList ++ '\\' :: 'n' :: "b\"".toList :=
  ⟨rfl, (c1_in_string_repair ("\"a".toList) ("b\"".toList) rfl rfl rfl).1⟩

/-- C9: normalizing a fenced block (with an empty or `json` language
tag) around a trimmed body that is not itself fenced strips the fence
marker lines and yields the same document as normalizing the bare
body. -/
theorem c9_fence_strip_equiv (tag body : List Char)
    (htag : tag = [] ∨ tag = ['j', 's', 'o', 'n'])
    (hne : body ≠ [])
    (hhead : ∀ c, body.head? = some c → isPySpace c = false ∧ ¬ c = backtick)
    (hlast : ∀ c, body.getLast? = some c → isPySpace c = false) :
    cleanContent ([backtick, backtick, backtick] ++ tag ++ '\n' :: body ++
        '\n' :: [backtick, backtick, backtick]) = body ∧
    cleanContent body = body ∧
    ∀ parse : List Char → Option Json,
      normalizeWith parse ([backtick, backtick, backtick] ++ tag ++ '\n' :: body ++
        '\n' :: [backtick, backtick, backtick]) = normalizeWith parse body := by
  cases body with
  | nil => exact absurd rfl hne
  | cons b bs =>
    obtain ⟨hb1, hb2⟩ := hhead b rfl
    have main := cleanContent_fenced tag b bs htag hb1 hb2 hlast
    refine ⟨main.1, main.2, ?_⟩
    intro parse
    simp only [normalizeWith]
    rw [main.1, main.2]

/-- Witness for C9 at a concrete json-tagged fenced block. -/
theorem c9_fence_strip_equiv_witness :
    cleanContent ([backtick, backtick, backtick] ++ "json".toList ++ '\n' :: "ok".toList ++
        '\n' :: [backtick, backtick, backtick]) = "ok".toList :=
  (c9_fence_strip_equiv ("json".toList) ("ok".toList) (Or.inr rfl)
    (by intro h; cases h)
    (by intro c hc; injection hc with h; subst h; exact ⟨rfl, by decide⟩)
    (by intro c hc; injection hc with h; subst h; rfl)).1

/-- C2: evaluation of the code at the failing input. The claim says the
outgoing DELETE request carries a `force` parameter equal to the
caller's flag; in the code, `_request`'s DELETE branch drops `params`,
so `delete_post` with `force = true` and with `force = false` put the
very same request on the wire, with no `force` parameter at all. -/
theorem c2_delete_force_dropped :
    deletePost "https://example.com" 7 true = deletePost "https://example.com" 7 false ∧
    (deletePost "https://example.com" 7 true).params = none := ⟨rfl, rfl⟩

/-- C4: when the availability check of the generation adapter is false,
the `generate_post_with_ai` dispatch returns the JSON-RPC error
envelope with code -32603 and the generator-unavailable message, and
the log of Content API Client calls is empty — no remote content
mutation is attempted before the short circuit. -/
theorem c4_unavailable_short_circuit (gen : AIContentGenerator)
    (aiContent : Option Json) (r : Remote) (status : String)
    (h : gen.isAvailable = false) :
    generatePostFlow gen aiContent r status =
      (RpcResult.rpcError (-32603) "Generador de IA no disponible.", r, []) := by
  simp [generatePostFlow, h]

/-- Witness for C4 at a concrete unconfigured adapter state. -/
theorem c4_unavailable_short_circuit_witness :
    AIContentGenerator.isAvailable ⟨false, "", "", ""⟩ = false ∧
    generatePostFlow ⟨false, "", "", ""⟩ none ⟨[], [], 0, true⟩ "draft" =
      (RpcResult.rpcError (-32603) "Generador de IA no disponible.", ⟨[], [], 0, true⟩, []) :=
  ⟨rfl, c4_unavailable_short_circuit _ _ _ _ rfl⟩

/-- C7: resolving a single tag name for which the remote listing holds
a case-insensitively matching term returns that term's id, issues only
the one listing fetch, performs zero creation calls, and leaves the
remote unchanged. -/
theorem c7_existing_tag_matched (r : Remote) (n : String) (t : Term)
    (h : findTerm r.tags n = some t) :
    resolveTags r [n] = ([t.id], r, [WpCall.listTags 100]) ∧
    ((resolveTags r [n]).2.2.filter isCreateCall).length = 0 := by
  have h1 : resolveTags r [n] = ([t.id], r, [WpCall.listTags 100]) := by
    simp [resolveTags, h]
  exact ⟨h1, by rw [h1]; rfl⟩

/-- Witness for C7: the remote holds a term named in different case. -/
theorem c7_existing_tag_matched_witness :
    findTerm [Term.mk 3 "existing tag"] "Existing Tag" = some (Term.mk 3 "existing tag") ∧
    resolveTags ⟨[Term.mk 3 "existing tag"], [], 10, true⟩ ["Existing Tag"] =
      ([3], ⟨[Term.mk 3 "existing tag"], [], 10, true⟩, [WpCall.listTags 100]) :=
  ⟨rfl, (c7_existing_tag_matched ⟨[Term.mk 3 "existing tag"], [], 10, true⟩
    "Existing Tag" (Term.mk 3 "existing tag") rfl).1⟩

/-- C6: resolving a single tag name with no case-insensitive match in
the remote listing issues exactly one creation call; when the creation
succeeds the result is the freshly assigned id, and when it fails the
result is the empty sequence (the loop catches the failure and returns
normally). -/
theorem c6_new_tag_single_creation (r : Remote) (n : String)
    (h : findTerm r.tags n = none) :
    ((resolveTags r [n]).2.2.filter isCreateCall).length = 1 ∧
    (r.tagCreateOk = true → (resolveTags r [n]).1 = [r.nextId]) ∧
    (r.tagCreateOk = false → (resolveTags r [n]).1 = []) := by
  cases hc : r.tagCreateOk <;>
    simp [resolveTags, h, wpCreateTag, hc, isCreateCall]

/-- Witness for C6 on an empty remote listing. -/
theorem c6_new_tag_single_creation_witness :
    findTerm ([] : List Term) "Brand New Tag" = none ∧
    (resolveTags ⟨[], [], 5, true⟩ ["Brand New Tag"]).1 = [5] :=
  ⟨rfl, (c6_new_tag_single_creation ⟨[], [], 5, true⟩ "Brand New Tag" rfl).2.1 rfl⟩

/-- C8: category resolution never issues a creation call, leaves the
remote state unchanged, and resolves exactly the names that have a
case-insensitive match, dropping the rest. -/
theorem c8_categories_never_created (r : Remote) (names : List String) :
    (resolveCategories r names).2.1 = r ∧
    ((resolveCategories r names).2.2.filter isCreateCall) = [] ∧
    (resolveCategories r names).1 =
      names.filterMap (fun n => (findTerm r.categories n).map Term.id) := by
  induction names with
  | nil => simp [resolveCategories]
  | cons n rest ih =>
    obtain ⟨ih1, ih2, ih3⟩ := ih
    cases h : findTerm r.categories n <;>
      simp [resolveCategories, h, isCreateCall, ih1, ih2, ih3]

/-- C10: the generation adapter built by the constructor is available in
every process environment — the constructor ignores the environment,
hardcodes the Groq credential, and marks the client available — so the
generator-unavailable branch of the AI dispatch is unreachable. -/
theorem c10_generator_always_available :
    ∀ env : List (String × String),
      (AIContentGenerator.init env).isAvailable = true ∧
      (AIContentGenerator.init env).apiKey =
        "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" ∧
      ∀ (aiContent : Option Json) (r : Remote) (status : String),
        (generatePostFlow (AIContentGenerator.init env) aiContent r status).1 ≠
          RpcResult.rpcError (-32603) "Generador de IA no disponible." := by
  intro env
  refine ⟨rfl, rfl, ?_⟩
  intro aiContent r status
  cases aiContent with
  | none =>
    simp only [generatePostFlow, AIContentGenerator.init, AIContentGenerator.isAvailable,
      if_pos rfl]
    intro hcontra
    injection hcontra with h1 h2
    exact absurd h2 (by decide)
  | some doc =>
    simp only [generatePostFlow, AIContentGenerator.init, AIContentGenerator.isAvailable,
      if_pos rfl]
    cases ht : jsonGet doc "title" <;> cases hc : jsonGet doc "content" <;>
      simp only [ht, hc]
    · intro hcontra; injection hcontra with h1 h2; exact absurd h2 (by decide)
    · intro hcontra; injection hcontra with h1 h2; exact absurd h2 (by decide)
    · intro hcontra; injection hcontra with h1 h2; exact absurd h2 (by decide)
    · intro hcontra; exact RpcResult.noConfusion hcontra

/-- C5 counterexample: through the HTTP wrapper dispatcher, an
`update_post` call that provides only `title` nevertheless sends a
`content` field — as JSON null — in the outgoing request body,
contradicting the claim that omitted fields are absent and never sent
as null. -/
theorem c5_wrapper_null_fields :
    hasKey [("title", Json.str "T")] "content" = false ∧
    bodyLookup (wrapperUpdatePost "https://example.com" 1 [("title", Json.str "T")])
      "content" = some Json.null := ⟨rfl, rfl⟩

/-- C5 as amended: the Content API Client's `update_post` sends exactly
the caller-supplied keys, and the stdio dispatcher forwards exactly the
provided arguments (minus `post_id`), so omitted fields are absent
there; the HTTP wrapper dispatcher, however, always sends all five
optional fields, valued JSON null when the caller omitted them. -/
theorem c5_sparse_update (baseUrl : String) (postId : Nat)
    (kwargs args : List (String × Json)) :
    (updatePost baseUrl postId kwargs).body = some kwargs ∧
    (serverUpdatePost baseUrl postId args).body =
      some (args.filter (fun p => ¬ p.1 = "post_id")) ∧
    (∀ k, hasKey args k = false →
      bodyLookup (serverUpdatePost baseUrl postId args) k = none) ∧
    (∀ k, k ∈ ["title", "content", "status", "categories", "tags"] →
      hasKey args k = false →
      bodyLookup (wrapperUpdatePost baseUrl postId args) k = some Json.null) := by
  refine ⟨rfl, rfl, ?_, ?_⟩
  · intro k hk
    have e : bodyLookup (serverUpdatePost baseUrl postId args) k =
        lookupKey (args.filter (fun p => ¬ p.1 = "post_id")) k := rfl
    rw [e]
    exact lookupKey_eq_none _ _ (hasKey_filter_false _ _ _ hk)
  · intro k hmem hk
    have hnull : pyGet args k = Json.null := by
      simp [pyGet, lookupKey_eq_none args k hk]
    simp only [List.mem_cons, List.not_mem_nil, or_false] at hmem
    rcases hmem with h | h | h | h | h
    · subst h
      have : bodyLookup (wrapperUpdatePost baseUrl postId args) "title" =
          some (pyGet args "title") := rfl
      rw [this, hnull]
    · subst h
      have : bodyLookup (wrapperUpdatePost baseUrl postId args) "content" =
          some (pyGet args "content") := rfl
      rw [this, hnull]
    · subst h
      have : bodyLookup (wrapperUpdatePost baseUrl postId args) "status" =
          some (pyGet args "status") := rfl
      rw [this, hnull]
    · subst h
      have : bodyLookup (wrapperUpdatePost baseUrl postId args) "categories" =
          some (pyGet args "categories") := rfl
      rw [this, hnull]
    · subst h
      have : bodyLookup (wrapperUpdatePost baseUrl postId args) "tags" =
          some (pyGet args "tags") := rfl
      rw [this, hnull]

/-- Witness for C5 on the sparse stdio path. -/
theorem c5_sparse_update_witness :
    hasKey [("title", Json.str "T")] "status" = false ∧
    bodyLookup (serverUpdatePost "https://example.com" 1 [("title", Json.str "T")])
      "status" = none :=
  ⟨rfl, (c5_sparse_update "https://example.com" 1 [] [("title", Json.str "T")]).2.2.1
    "status" rfl⟩

/-- C3 counterexample: a parsed document whose three required keys are
all present but whose `title` value is JSON null is accepted by the
validation step, and the returned document carries the null title — so
"present and non-null" overstates what the code guarantees (it checks
key presence only). -/
theorem c3_null_title_passes :
    (validateParsed (Json.obj [("title", Json.null), ("content", Json.str "c"),
      ("excerpt", Json.str "e")])).isSome = true ∧
    jsonGet ((validateParsed (Json.obj [("title", Json.null), ("content", Json.str "c"),
      ("excerpt", Json.str "e")])).getD Json.null) "title" = some Json.null :=
  ⟨rfl, rfl⟩

/-- C3 as amended: normalization of a parsed document missing any of
`title`, `content`, `excerpt` fails (returns the failure result, never
a partial document), and this lifts to the whole pipeline for any
parser; when all three keys are present, the returned document has the
three keys present (their values may be JSON null) with `categories`
and `tags` defaulted to present as well. -/
theorem c3_required_keys (kvs : List (String × Json)) :
    ((hasKey kvs "title" = false ∨ hasKey kvs "content" = false ∨
        hasKey kvs "excerpt" = false) → validateParsed (Json.obj kvs) = none) ∧
    (hasKey kvs "title" = true → hasKey kvs "content" = true →
      hasKey kvs "excerpt" = true →
      ∃ out, validateParsed (Json.obj kvs) = some (Json.obj out) ∧
        hasKey out "title" = true ∧ hasKey out "content" = true ∧
        hasKey out "excerpt" = true ∧ hasKey out "categories" = true ∧
        hasKey out "tags" = true) ∧
    (∀ (parse : List Char → Option Json) (s : List Char),
      parse (repairList (cleanContent s)) = some (Json.obj kvs) →
      (hasKey kvs "title" = false ∨ hasKey kvs "content" = false ∨
        hasKey kvs "excerpt" = false) →
      normalizeWith parse s = none) := by
  have hmiss : (hasKey kvs "title" = false ∨ hasKey kvs "content" = false ∨
      hasKey kvs "excerpt" = false) → validateParsed (Json.obj kvs) = none := by
    rintro (h | h | h) <;> simp [validateParsed, h]
  refine ⟨hmiss, ?_, ?_⟩
  · intro h1 h2 h3
    have e : validateParsed (Json.obj kvs) = some (Json.obj (withDefaults kvs)) := by
      simp [validateParsed, h1, h2, h3]
    exact ⟨withDefaults kvs, e, withDefaults_keeps kvs "title" h1,
      withDefaults_keeps kvs "content" h2, withDefaults_keeps kvs "excerpt" h3,
      withDefaults_has_cat kvs, withDefaults_has_tags kvs⟩
  · intro parse s hp h
    simp [normalizeWith, hp, hmiss h]

/-- Witness for C3 at a document holding the three required keys. -/
theorem c3_required_keys_witness :
    hasKey [("title", Json.str "t"), ("content", Json.str "c"),
      ("excerpt", Json.str "e")] "title" = true ∧
    ∃ out, validateParsed (Json.obj [("title", Json.str "t"), ("content", Json.str "c"),
        ("excerpt", Json.str "e")]) = some (Json.obj out) ∧
      hasKey out "title" = true ∧ hasKey out "content" = true ∧
      hasKey out "excerpt" = true ∧ hasKey out "categories" = true ∧
      hasKey out "tags" = true :=
  ⟨rfl, (c3_required_keys [("title", Json.str "t"), ("content", Json.str "c"),
    ("excerpt", Json.str "e")]).2.1 rfl rfl rfl⟩

/-- Witness for C10 at a concrete environment and input. -/
theorem c10_generator_always_available_witness :
    (generatePostFlow (AIContentGenerator.init [("GROQ_API_KEY", "")]) none
        ⟨[], [], 0, true⟩ "draft").1 ≠
      RpcResult.rpcError (-32603) "Generador de IA no disponible." :=
  (c10_generator_always_available [("GROQ_API_KEY", "")]).2.2 none ⟨[], [], 0, true⟩ "draft"

end Mcpwp
